import Mathlib

/-!
Verification of the fiscal oracle tax engine (src/oracle/fiscal_oracle.py).

The Python code computes tax amounts with CPython semantics: `int * float`
converts the integer to the nearest IEEE-754 double and multiplies with
round-to-nearest-even; `int / int` true division returns the correctly
rounded double of the exact quotient; `int(x)` truncates toward zero.
We embed doubles by their exact rational values and model the rounding
explicitly, so every arithmetic step of the source is mirrored exactly
(for inputs inside the double range; CPython raises OverflowError above
about 2^1024, so universal statements carry a range hypothesis where the
magnitude matters).
-/

/-- Exact power of two as a rational, for binary exponents in ℤ. -/
def pow2 (e : ℤ) : ℚ :=
  if 0 ≤ e then ((2 : ℚ) ^ e.toNat) else ((2 : ℚ) ^ (-e).toNat)⁻¹

theorem pow2_eq_zpow (e : ℤ) : pow2 e = (2 : ℚ) ^ e := by
  unfold pow2
  split
  · rw [← zpow_natCast, Int.toNat_of_nonneg]
    assumption
  · rw [← zpow_natCast, Int.toNat_of_nonneg (by omega : (0:ℤ) ≤ -e), ← zpow_neg, neg_neg]

theorem pow2_pos (e : ℤ) : 0 < pow2 e := by
  rw [pow2_eq_zpow]; positivity

theorem pow2_add (a b : ℤ) : pow2 (a + b) = pow2 a * pow2 b := by
  rw [pow2_eq_zpow, pow2_eq_zpow, pow2_eq_zpow, zpow_add₀ (by norm_num : (2:ℚ) ≠ 0)]

theorem pow2_mono {a b : ℤ} (h : a ≤ b) : pow2 a ≤ pow2 b := by
  rw [pow2_eq_zpow, pow2_eq_zpow]
  exact zpow_le_zpow_right₀ (by norm_num) h

theorem pow2_natCast (k : ℕ) : pow2 (k : ℤ) = (2 : ℚ) ^ k := by
  rw [pow2_eq_zpow, zpow_natCast]

theorem pow2_lt_pow2 {a b : ℤ} (h : a < b) : pow2 a < pow2 b := by
  rw [pow2_eq_zpow, pow2_eq_zpow]
  exact zpow_lt_zpow_right₀ (by norm_num) h

/-- Binary exponent of a positive rational: the unique e with 2^e ≤ q < 2^(e+1),
computed via Nat.log2. -/
def qexp (q : ℚ) : ℤ :=
  if 1 ≤ q then (Nat.log2 ⌊q⌋.toNat : ℤ)
  else
    if pow2 (-(Nat.log2 ⌊q⁻¹⌋.toNat : ℤ)) ≤ q then -(Nat.log2 ⌊q⁻¹⌋.toNat : ℤ)
    else -(Nat.log2 ⌊q⁻¹⌋.toNat : ℤ) - 1

theorem nat_log2_bounds {n : ℕ} (hn : n ≠ 0) :
    (2 : ℕ) ^ Nat.log2 n ≤ n ∧ n < 2 ^ (Nat.log2 n + 1) := by
  rw [Nat.log2_eq_log_two]
  exact ⟨Nat.pow_log_le_self 2 hn, Nat.lt_pow_succ_log_self (by norm_num) n⟩

theorem qexp_spec {q : ℚ} (hq : 0 < q) :
    pow2 (qexp q) ≤ q ∧ q < pow2 (qexp q + 1) := by
  unfold qexp
  split
  · rename_i h1
    have hfl : (1 : ℤ) ≤ ⌊q⌋ := by exact_mod_cast Int.le_floor.mpr (by exact_mod_cast h1)
    have hnz : ⌊q⌋.toNat ≠ 0 := by omega
    obtain ⟨hlo, hhi⟩ := nat_log2_bounds hnz
    set k := Nat.log2 ⌊q⌋.toNat with hk
    constructor
    · rw [pow2_natCast]
      calc ((2:ℚ) ^ k) = ((2 ^ k : ℕ) : ℚ) := by push_cast; ring
        _ ≤ ((⌊q⌋.toNat : ℕ) : ℚ) := by exact_mod_cast hlo
        _ = ((⌊q⌋ : ℤ) : ℚ) := by
              have h3 : (⌊q⌋.toNat : ℤ) = ⌊q⌋ := Int.toNat_of_nonneg (by omega)
              exact_mod_cast congrArg (fun z : ℤ => (z : ℚ)) h3
        _ ≤ q := Int.floor_le q
    · have : ((k : ℤ) + 1) = ((k + 1 : ℕ) : ℤ) := by push_cast; ring
      rw [this, pow2_natCast]
      calc q < (⌊q⌋ : ℚ) + 1 := Int.lt_floor_add_one q
        _ = ((⌊q⌋.toNat : ℤ) : ℚ) + 1 := by
              have h3 : (⌊q⌋.toNat : ℤ) = ⌊q⌋ := Int.toNat_of_nonneg (by omega)
              rw [h3]
        _ = ((⌊q⌋.toNat + 1 : ℕ) : ℚ) := by push_cast; ring
        _ ≤ ((2 ^ (k+1) : ℕ) : ℚ) := by exact_mod_cast hhi
        _ = (2:ℚ) ^ (k+1) := by push_cast; ring
  · rename_i h1
    have hq1 : q < 1 := lt_of_not_le h1
    have hinv : 1 < q⁻¹ := (one_lt_inv₀ hq).mpr hq1
    have hfl : (1 : ℤ) ≤ ⌊q⁻¹⌋ := Int.le_floor.mpr (by exact_mod_cast hinv.le)
    have hnz : ⌊q⁻¹⌋.toNat ≠ 0 := by omega
    obtain ⟨hlo, hhi⟩ := nat_log2_bounds hnz
    set k := Nat.log2 ⌊q⁻¹⌋.toNat with hk
    have hk1 : (2:ℚ) ^ k ≤ q⁻¹ := by
      calc ((2:ℚ) ^ k) = ((2 ^ k : ℕ) : ℚ) := by push_cast; ring
        _ ≤ ((⌊q⁻¹⌋.toNat : ℕ) : ℚ) := by exact_mod_cast hlo
        _ = ((⌊q⁻¹⌋ : ℤ) : ℚ) := by
              have h3 : (⌊q⁻¹⌋.toNat : ℤ) = ⌊q⁻¹⌋ := Int.toNat_of_nonneg (by omega)
              exact_mod_cast congrArg (fun z : ℤ => (z : ℚ)) h3
        _ ≤ q⁻¹ := Int.floor_le _
    have hk2 : q⁻¹ < (2:ℚ) ^ (k+1) := by
      calc q⁻¹ < (⌊q⁻¹⌋ : ℚ) + 1 := Int.lt_floor_add_one _
        _ = ((⌊q⁻¹⌋.toNat : ℤ) : ℚ) + 1 := by
              have h3 : (⌊q⁻¹⌋.toNat : ℤ) = ⌊q⁻¹⌋ := Int.toNat_of_nonneg (by omega)
              rw [h3]
        _ = ((⌊q⁻¹⌋.toNat + 1 : ℕ) : ℚ) := by push_cast; ring
        _ ≤ ((2 ^ (k+1) : ℕ) : ℚ) := by exact_mod_cast hhi
        _ = (2:ℚ) ^ (k+1) := by push_cast; ring
    have hup : q ≤ pow2 (-(k:ℤ)) := by
      rw [pow2_eq_zpow, zpow_neg, zpow_natCast]
      rw [← inv_inv q]
      exact inv_anti₀ (by positivity) hk1
    have hdown : pow2 (-(k:ℤ) - 1) < q := by
      rw [pow2_eq_zpow]
      have : (2:ℚ) ^ (-(k:ℤ) - 1) = ((2:ℚ) ^ (k+1))⁻¹ := by
        rw [← zpow_natCast (2:ℚ) (k+1), ← zpow_neg]
        congr 1
        push_cast; ring
      rw [this, ← inv_inv q]
      exact inv_strictAnti₀ (by positivity) hk2
    split
    · rename_i h2
      have hqe : q = pow2 (-(k:ℤ)) := le_antisymm hup h2
      refine ⟨le_of_eq hqe.symm, ?_⟩
      rw [hqe]
      exact pow2_lt_pow2 (by omega)
    · rename_i h2
      refine ⟨hdown.le, ?_⟩
      rw [sub_add_cancel]
      exact lt_of_not_le h2

theorem qexp_unique {q : ℚ} (hq : 0 < q) {e : ℤ}
    (h1 : pow2 e ≤ q) (h2 : q < pow2 (e + 1)) : qexp q = e := by
  obtain ⟨hl, hr⟩ := qexp_spec hq
  by_contra hne
  rcases lt_or_gt_of_ne hne with h | h
  · have hm : pow2 (qexp q + 1) ≤ pow2 e := pow2_mono (by omega)
    linarith
  · have hm : pow2 (e + 1) ≤ pow2 (qexp q) := pow2_mono (by omega)
    linarith

/-- Round a rational to an integer, half-to-even (the IEEE-754 tie rule). -/
def rhe (q : ℚ) : ℤ :=
  if q - ⌊q⌋ < 1/2 then ⌊q⌋
  else if (1 : ℚ)/2 < q - ⌊q⌋ then ⌊q⌋ + 1
  else if ⌊q⌋ % 2 = 0 then ⌊q⌋ else ⌊q⌋ + 1

theorem rhe_intCast (n : ℤ) : rhe (n : ℚ) = n := by
  unfold rhe
  rw [Int.floor_intCast]
  norm_num

theorem rhe_ge (q : ℚ) : q - 1/2 ≤ (rhe q : ℚ) := by
  unfold rhe
  have h1 := Int.floor_le q
  have h2 := Int.lt_floor_add_one q
  split
  · linarith
  · split
    · push_cast; linarith
    · split
      · linarith
      · push_cast; linarith

theorem rhe_le (q : ℚ) : (rhe q : ℚ) ≤ q + 1/2 := by
  unfold rhe
  have h1 := Int.floor_le q
  have h2 := Int.lt_floor_add_one q
  split
  · linarith
  · rename_i h3
    push_cast at h3 ⊢
    split
    · linarith
    · rename_i h4
      split
      · linarith
      · push_cast
        linarith

theorem rhe_eq_of_lt_half {q : ℚ} {n : ℤ} (h1 : (n : ℚ) ≤ q) (h2 : q < (n : ℚ) + 1/2) :
    rhe q = n := by
  have hfl : ⌊q⌋ = n := Int.floor_eq_iff.mpr ⟨h1, by linarith⟩
  unfold rhe
  rw [hfl]
  rw [if_pos (by linarith)]

theorem rhe_eq_of_gt_half {q : ℚ} {n : ℤ} (h1 : (n : ℚ) + 1/2 < q) (h2 : q < (n : ℚ) + 1) :
    rhe q = n + 1 := by
  have hfl : ⌊q⌋ = n := Int.floor_eq_iff.mpr ⟨by linarith, by linarith⟩
  unfold rhe
  rw [hfl]
  rw [if_neg (by push_cast; linarith), if_pos (by push_cast; linarith)]

/-- Round a positive rational to the nearest IEEE-754 double (53-bit mantissa),
ties to even, without overflow or subnormal clamping (irrelevant in the range
this program touches). -/
def rndPos (q : ℚ) : ℚ :=
  rhe (q / pow2 (qexp q - 52)) * pow2 (qexp q - 52)

/-- Round any rational to the nearest double value; IEEE rounding is symmetric
about zero. -/
def rnd (q : ℚ) : ℚ :=
  if q < 0 then -(rndPos (-q)) else if q = 0 then 0 else rndPos q

theorem rnd_zero : rnd 0 = 0 := by
  unfold rnd
  norm_num

theorem rnd_pos_eq {q : ℚ} (hq : 0 < q) : rnd q = rndPos q := by
  unfold rnd
  rw [if_neg (by linarith), if_neg (by linarith)]

/-- Evaluation rule: if the binary exponent and the rounded scaled mantissa are
exhibited, rnd is determined. -/
theorem rnd_eq_of {q : ℚ} (E M : ℤ) (hq : 0 < q)
    (h1 : pow2 E ≤ q) (h2 : q < pow2 (E + 1))
    (h3 : rhe (q / pow2 (E - 52)) = M) : rnd q = (M : ℚ) * pow2 (E - 52) := by
  rw [rnd_pos_eq hq]
  unfold rndPos
  rw [qexp_unique hq h1 h2, h3]

/-- A dyadic rational with mantissa below 2^53 is an exact double. -/
theorem rnd_dyadic (m E : ℤ) (h0 : 0 < m) (h1 : m < 2 ^ 53) :
    rnd ((m : ℚ) * pow2 E) = (m : ℚ) * pow2 E := by
  have hmnz : m.toNat ≠ 0 := by omega
  obtain ⟨hlo, hhi⟩ := nat_log2_bounds hmnz
  set L := Nat.log2 m.toNat with hL
  have hmq : ((m.toNat : ℕ) : ℚ) = (m : ℚ) := by
    have h3 : (m.toNat : ℤ) = m := Int.toNat_of_nonneg (by omega)
    exact_mod_cast congrArg (fun z : ℤ => (z : ℚ)) h3
  have hL52 : L ≤ 52 := by
    by_contra hc
    have h53 : 53 ≤ L := by omega
    have : (2 : ℕ) ^ 53 ≤ 2 ^ L := Nat.pow_le_pow_right (by norm_num) h53
    have hm53 : (2 : ℕ) ^ 53 ≤ m.toNat := le_trans this hlo
    omega
  have hq : 0 < (m : ℚ) * pow2 E := by
    have := pow2_pos E
    have : (0 : ℚ) < (m : ℚ) := by exact_mod_cast h0
    positivity
  have hlo' : pow2 ((L : ℤ) + E) ≤ (m : ℚ) * pow2 E := by
    rw [pow2_add]
    have : pow2 (L : ℤ) ≤ (m : ℚ) := by
      rw [pow2_natCast]
      calc ((2:ℚ) ^ L) = ((2 ^ L : ℕ) : ℚ) := by push_cast; ring
        _ ≤ ((m.toNat : ℕ) : ℚ) := by exact_mod_cast hlo
        _ = (m : ℚ) := hmq
    have := pow2_pos E
    nlinarith
  have hhi' : (m : ℚ) * pow2 E < pow2 ((L : ℤ) + E + 1) := by
    have h4 : ((L : ℤ) + E + 1) = ((L : ℤ) + 1) + E := by ring
    rw [h4, pow2_add]
    have : (m : ℚ) < pow2 ((L : ℤ) + 1) := by
      have h5 : ((L : ℤ) + 1) = ((L + 1 : ℕ) : ℤ) := by push_cast; ring
      rw [h5, pow2_natCast]
      calc (m : ℚ) = ((m.toNat : ℕ) : ℚ) := hmq.symm
        _ < ((2 ^ (L + 1) : ℕ) : ℚ) := by exact_mod_cast hhi
        _ = (2:ℚ) ^ (L + 1) := by push_cast; ring
    have := pow2_pos E
    nlinarith
  have hx : ((m : ℚ) * pow2 E) / pow2 ((L : ℤ) + E - 52) = ((m * 2 ^ (52 - L) : ℤ) : ℚ) := by
    have hsplit : pow2 ((L : ℤ) + E) = pow2 ((L : ℤ) + E - 52) * pow2 52 := by
      rw [← pow2_add]; congr 1; ring
    have h6 : pow2 ((L : ℤ) + E - 52) ≠ 0 := ne_of_gt (pow2_pos _)
    have h7 : pow2 E = pow2 ((L : ℤ) + E - 52) * pow2 (52 - (L : ℤ)) := by
      rw [← pow2_add]; congr 1; ring
    rw [h7]
    field_simp
    have h8 : pow2 (52 - (L : ℤ)) = ((2 ^ (52 - L) : ℤ) : ℚ) := by
      have h9 : (52 - (L : ℤ)) = ((52 - L : ℕ) : ℤ) := by omega
      rw [h9, pow2_natCast]
      push_cast
      ring
    rw [h8]
    push_cast
    ring
  have := rnd_eq_of ((L : ℤ) + E) (m * 2 ^ (52 - L)) hq hlo' hhi'
    (by rw [hx, rhe_intCast])
  rw [this]
  have h8 : ((m * 2 ^ (52 - L) : ℤ) : ℚ) = (m : ℚ) * pow2 (52 - (L : ℤ)) := by
    have h9 : (52 - (L : ℤ)) = ((52 - L : ℕ) : ℤ) := by omega
    rw [h9, pow2_natCast]
    push_cast
    ring
  rw [h8, mul_assoc, ← pow2_add]
  congr 2
  ring

/-- An integer below 2^53 is an exact double. -/
theorem rnd_int_small (n : ℤ) (h0 : 0 < n) (h1 : n < 2 ^ 53) :
    rnd (n : ℚ) = (n : ℚ) := by
  have h2 := rnd_dyadic n 0 h0 h1
  have hp : pow2 0 = 1 := by norm_num [pow2, Int.toNat]
  rw [hp, mul_one] at h2
  exact h2

theorem pow2_succ (e : ℤ) : pow2 (e + 1) = pow2 e * 2 := by
  rw [pow2_add]
  norm_num [pow2, Int.toNat]

theorem rndPos_bounds {q : ℚ} (hq : 0 < q) :
    q - pow2 (qexp q - 53) ≤ rndPos q ∧ rndPos q ≤ q + pow2 (qexp q - 53) := by
  unfold rndPos
  have hp : (0 : ℚ) < pow2 (qexp q - 52) := pow2_pos _
  have hhalf : pow2 (qexp q - 52) / 2 = pow2 (qexp q - 53) := by
    have : (qexp q - 52) = (qexp q - 53) + 1 := by ring
    rw [this, pow2_succ]
    field_simp
  have hge := rhe_ge (q / pow2 (qexp q - 52))
  have hle := rhe_le (q / pow2 (qexp q - 52))
  constructor
  · have := mul_le_mul_of_nonneg_right hge hp.le
    rw [sub_mul, div_mul_cancel₀ _ (ne_of_gt hp)] at this
    calc q - pow2 (qexp q - 53) = q - pow2 (qexp q - 52) / 2 := by rw [hhalf]
      _ = q - 1/2 * pow2 (qexp q - 52) := by ring
      _ ≤ (rhe (q / pow2 (qexp q - 52)) : ℚ) * pow2 (qexp q - 52) := by linarith
  · have := mul_le_mul_of_nonneg_right hle hp.le
    rw [add_mul, div_mul_cancel₀ _ (ne_of_gt hp)] at this
    calc (rhe (q / pow2 (qexp q - 52)) : ℚ) * pow2 (qexp q - 52)
        ≤ q + 1/2 * pow2 (qexp q - 52) := by linarith
      _ = q + pow2 (qexp q - 52) / 2 := by ring
      _ = q + pow2 (qexp q - 53) := by rw [hhalf]

theorem rnd_abs_err {q : ℚ} (hq : 0 < q) :
    q * (1 - pow2 (-53)) ≤ rnd q ∧ rnd q ≤ q * (1 + pow2 (-53)) := by
  rw [rnd_pos_eq hq]
  obtain ⟨h1, h2⟩ := rndPos_bounds hq
  obtain ⟨h3, _⟩ := qexp_spec hq
  have herr : pow2 (qexp q - 53) ≤ q * pow2 (-53) := by
    have : (qexp q - 53) = qexp q + (-53) := by ring
    rw [this, pow2_add]
    have hp : (0 : ℚ) < pow2 (-53) := pow2_pos _
    nlinarith
  constructor
  · nlinarith
  · nlinarith

theorem rnd_le_rel {q : ℚ} (hq : 0 ≤ q) : rnd q ≤ q * (1 + pow2 (-53)) := by
  rcases eq_or_lt_of_le hq with h | h
  · rw [← h, rnd_zero]
    norm_num
  · exact (rnd_abs_err h).2

theorem rnd_ge_rel {q : ℚ} (hq : 0 ≤ q) : q * (1 - pow2 (-53)) ≤ rnd q := by
  rcases eq_or_lt_of_le hq with h | h
  · rw [← h, rnd_zero]
    norm_num
  · exact (rnd_abs_err h).1

theorem pow2_neg_lt_one {e : ℤ} (h : e < 0) : pow2 e < 1 := by
  have := pow2_lt_pow2 h
  have h0 : pow2 0 = 1 := by norm_num [pow2, Int.toNat]
  rw [h0] at this
  exact this

theorem rnd_nonneg {q : ℚ} (hq : 0 ≤ q) : 0 ≤ rnd q := by
  rcases eq_or_lt_of_le hq with h | h
  · rw [← h, rnd_zero]
  · have h1 := (rnd_abs_err h).1
    have h2 : pow2 (-53) < 1 := pow2_neg_lt_one (by norm_num)
    nlinarith

theorem rnd_pos_of_pos {q : ℚ} (hq : 0 < q) : 0 < rnd q := by
  have h1 := (rnd_abs_err hq).1
  have h2 : pow2 (-53) < 1 := pow2_neg_lt_one (by norm_num)
  nlinarith

/-- Python `int(x)` applied to a float: truncation toward zero. -/
def truncQ (q : ℚ) : ℤ :=
  if q < 0 then -⌊-q⌋ else ⌊q⌋

theorem truncQ_of_nonneg {q : ℚ} (h : 0 ≤ q) : truncQ q = ⌊q⌋ := by
  unfold truncQ
  rw [if_neg (by linarith)]

theorem truncQ_intCast (n : ℤ) : truncQ (n : ℚ) = n := by
  unfold truncQ
  split
  · rename_i h
    have : (-(n : ℚ)) = ((-n : ℤ) : ℚ) := by push_cast; ring
    rw [this, Int.floor_intCast]
    ring
  · exact Int.floor_intCast n

theorem truncQ_le {q : ℚ} (h : 0 ≤ q) : (truncQ q : ℚ) ≤ q := by
  rw [truncQ_of_nonneg h]
  exact Int.floor_le q

theorem truncQ_nonneg {q : ℚ} (h : 0 ≤ q) : 0 ≤ truncQ q := by
  rw [truncQ_of_nonneg h]
  exact Int.floor_nonneg.mpr h

theorem truncQ_gt {q : ℚ} (h : 0 ≤ q) : q - 1 < (truncQ q : ℚ) := by
  rw [truncQ_of_nonneg h]
  have := Int.lt_floor_add_one q
  linarith

/-- CPython `int * float` and `float * float`: exact product, rounded to the
nearest double. -/
def fmul (x y : ℚ) : ℚ := rnd (x * y)

/-- CPython `int / int` true division: the correctly rounded double of the
exact quotient. -/
def fdivInt (a b : ℤ) : ℚ := rnd ((a : ℚ) / (b : ℚ))

/-- Rate triple of one SECTOR_RATES entry; IBS_MUNI embeds the dict key for
the municipal IBS rate. -/
structure SectorRates where
  CBS : ℚ
  IBS_ESTADO : ℚ
  IBS_MUNI : ℚ

/-- The SECTOR_RATES dict with each entry read as the exact decimal value of
the source literal (0.0865 = 865/10000 and so on), before float rounding. -/
def SECTOR_RATES_DEC (s : String) : Option SectorRates :=
  if s = "PADRAO" then some ⟨865/10000, 1115/10000, 470/10000⟩
  else if s = "SAUDE" then some ⟨433/10000, 558/10000, 235/10000⟩
  else if s = "EDUCACAO" then some ⟨433/10000, 558/10000, 235/10000⟩
  else if s = "TRANSPORTE_COLETIVO" then some ⟨433/10000, 558/10000, 235/10000⟩
  else if s = "CESTA_BASICA" then some ⟨0, 0, 0⟩
  else if s = "COMBUSTIVEIS" then some ⟨865/10000, 1115/10000, 470/10000⟩
  else none

/-- A Python float literal denotes the nearest double of its decimal value. -/
def floatRates (r : SectorRates) : SectorRates :=
  ⟨rnd r.CBS, rnd r.IBS_ESTADO, rnd r.IBS_MUNI⟩

/-- SECTOR_RATES as the Python process stores it: every literal rounded to its
double value. -/
def SECTOR_RATES (s : String) : Option SectorRates :=
  (SECTOR_RATES_DEC s).map floatRates

/-- The decimal PADRAO entry; cls.SECTOR_RATES["PADRAO"] is the .get default. -/
def PADRAO_DEC : SectorRates := ⟨865/10000, 1115/10000, 470/10000⟩

/-- The SIMPLIFIED_RATES_BPS dict (integer basis points, Art. 33). -/
def SIMPLIFIED_RATES_BPS (s : String) : Option ℤ :=
  if s = "PADRAO" then some 2650
  else if s = "SAUDE" then some 1325
  else if s = "EDUCACAO" then some 1325
  else if s = "TRANSPORTE_COLETIVO" then some 1325
  else if s = "CESTA_BASICA" then some 0
  else if s = "COMBUSTIVEIS" then some 2650
  else none

/-- Result dictionary of TaxEngine.calculate_standard. -/
structure StdResult where
  gross_amount : ℤ
  cbs_amount : ℤ
  ibs_state_amount : ℤ
  ibs_city_amount : ℤ
  total_tax : ℤ
  credit_offset : ℤ
  net_tax : ℤ
  net_to_seller : ℤ
  effective_rate : ℚ
  sector : String

/-- TaxEngine.calculate_standard (Art. 32): each share is int(gross * rate) in
double arithmetic; credits are capped at the total tax (Art. 32 §2). -/
def calculate_standard (gross_amount_wei : ℤ) (sector : String)
    (seller_credits_wei : ℤ) : StdResult :=
  let rates := (SECTOR_RATES sector).getD (floatRates PADRAO_DEC)
  let cbs_amount := truncQ (fmul (rnd (gross_amount_wei : ℚ)) rates.CBS)
  let ibs_state_amount := truncQ (fmul (rnd (gross_amount_wei : ℚ)) rates.IBS_ESTADO)
  let ibs_city_amount := truncQ (fmul (rnd (gross_amount_wei : ℚ)) rates.IBS_MUNI)
  let total_tax := cbs_amount + ibs_state_amount + ibs_city_amount
  let credit_offset := min seller_credits_wei total_tax
  let net_tax := total_tax - credit_offset
  { gross_amount := gross_amount_wei
    cbs_amount := cbs_amount
    ibs_state_amount := ibs_state_amount
    ibs_city_amount := ibs_city_amount
    total_tax := total_tax
    credit_offset := credit_offset
    net_tax := net_tax
    net_to_seller := gross_amount_wei - net_tax
    effective_rate := if 0 < gross_amount_wei then fdivInt total_tax gross_amount_wei else 0
    sector := sector }

/-- Result dictionary of TaxEngine.calculate_simplified. -/
structure SimpResult where
  gross_amount : ℤ
  rate_bps : ℤ
  tax_amount : ℤ
  net_to_seller : ℤ
  effective_rate : ℚ
  sector : String

/-- TaxEngine.calculate_simplified (Art. 33): tax is
int(gross * rate_bps / 10000), where gross * rate_bps is exact integer
arithmetic and the division by 10000 is float true division. -/
def calculate_simplified (gross_amount_wei : ℤ) (sector : String) : SimpResult :=
  let rate_bps := (SIMPLIFIED_RATES_BPS sector).getD 2650
  let tax_amount := truncQ (fdivInt (gross_amount_wei * rate_bps) 10000)
  { gross_amount := gross_amount_wei
    rate_bps := rate_bps
    tax_amount := tax_amount
    net_to_seller := gross_amount_wei - tax_amount
    effective_rate := fdivInt rate_bps 10000
    sector := sector }

/-- One argument of Web3.solidity_keccak, tagged with its Solidity type
(the type list at the call site fixes the packed width of every field). -/
inductive PackArg where
  | tstr : String → PackArg
  | taddr : ℤ → PackArg
  | tuint256 : ℤ → PackArg

/-- Big-endian byte encoding with a fixed width in bytes. -/
def beBytes : ℕ → ℕ → List ℕ
  | 0, _ => []
  | w + 1, n => beBytes w (n / 256) ++ [n % 256]

theorem beBytes_length (w n : ℕ) : (beBytes w n).length = w := by
  induction w generalizing n with
  | zero => rfl
  | succ w ih =>
    simp [beBytes, ih]

/-- abi.encodePacked of one argument: strings keep their raw bytes (modelled
by code points; the ids in this program are ASCII), addresses take 20 bytes,
uint256 takes 32 bytes. -/
def encodeArg : PackArg → List ℕ
  | .tstr s => s.data.map Char.toNat
  | .taddr a => beBytes 20 a.toNat
  | .tuint256 n => beBytes 32 n.toNat

/-- The packed byte string that Web3.solidity_keccak hashes. -/
def solidityPacked (args : List PackArg) : List ℕ :=
  (args.map encodeArg).flatten

/-- Result of signing an NF-e: the SignedInvoice dataclass. Addresses are
modelled by their 160-bit numeric value. The cryptographic primitives
(keccak-256 and ECDSA) live in third-party libraries, so the model carries
the exact packed payload that solidity_keccak receives in hashed_payload,
and the EIP-191 signature is abstracted as the pair of the signing key and
that payload. -/
structure SignedInvoice where
  invoice_id : String
  seller : ℤ
  gross_amount : ℤ
  cbs_amount : ℤ
  ibs_state_amount : ℤ
  ibs_city_amount : ℤ
  credit_offset : ℤ
  signature : String × List ℕ
  signer_address : ℤ
  timestamp : String
  mode : String
  rate_bps : ℤ
  hashed_payload : List ℕ

/-- Mutable state of a FiscalOracle instance: key, derived address, and the
signatures_issued counter. -/
structure FiscalOracle where
  private_key : String
  address : ℤ
  signatures_issued : ℤ

/-- FiscalOracle.authorize_standard: computes the standard-split tax, packs
(string invoice_id, address seller, uint256 gross, uint256 cbs, uint256
ibs_state, uint256 ibs_city, uint256 credit_offset), signs, bumps the
counter. datetime.now() is passed in as the parameter now. Returns the
updated oracle state together with the SignedInvoice. -/
def authorize_standard (o : FiscalOracle) (invoice_id : String)
    (seller_address : ℤ) (gross_amount_wei : ℤ) (sector : String)
    (seller_credits_wei : ℤ) (now : String) : FiscalOracle × SignedInvoice :=
  let tax := calculate_standard gross_amount_wei sector seller_credits_wei
  let payload := solidityPacked
    [ .tstr invoice_id, .taddr seller_address, .tuint256 gross_amount_wei,
      .tuint256 tax.cbs_amount, .tuint256 tax.ibs_state_amount,
      .tuint256 tax.ibs_city_amount, .tuint256 tax.credit_offset ]
  (⟨o.private_key, o.address, o.signatures_issued + 1⟩,
   { invoice_id := invoice_id
     seller := seller_address
     gross_amount := gross_amount_wei
     cbs_amount := tax.cbs_amount
     ibs_state_amount := tax.ibs_state_amount
     ibs_city_amount := tax.ibs_city_amount
     credit_offset := tax.credit_offset
     signature := (o.private_key, payload)
     signer_address := o.address
     timestamp := now
     mode := "STANDARD"
     rate_bps := 0
     hashed_payload := payload })

/-- FiscalOracle.authorize_simplified: packs (string invoice_id, address
seller, uint256 gross, uint256 rate_bps, string "SIMPLIFIED"), signs, bumps
the counter. -/
def authorize_simplified (o : FiscalOracle) (invoice_id : String)
    (seller_address : ℤ) (gross_amount_wei : ℤ) (sector : String)
    (now : String) : FiscalOracle × SignedInvoice :=
  let tax := calculate_simplified gross_amount_wei sector
  let payload := solidityPacked
    [ .tstr invoice_id, .taddr seller_address, .tuint256 gross_amount_wei,
      .tuint256 tax.rate_bps, .tstr "SIMPLIFIED" ]
  (⟨o.private_key, o.address, o.signatures_issued + 1⟩,
   { invoice_id := invoice_id
     seller := seller_address
     gross_amount := gross_amount_wei
     cbs_amount := 0
     ibs_state_amount := 0
     ibs_city_amount := 0
     credit_offset := 0
     signature := (o.private_key, payload)
     signer_address := o.address
     timestamp := now
     mode := "SIMPLIFIED"
     rate_bps := tax.rate_bps
     hashed_payload := payload })

/-- One authorize_* call with its arguments, for reasoning about sequences
of calls against a single oracle instance. -/
inductive OracleCall where
  | std (invoice_id : String) (seller : ℤ) (gross : ℤ) (sector : String)
      (credits : ℤ) (now : String)
  | simplified (invoice_id : String) (seller : ℤ) (gross : ℤ) (sector : String)
      (now : String)

/-- State transition of one call (the returned invoice is discarded). -/
def applyCall (o : FiscalOracle) : OracleCall → FiscalOracle
  | .std i s g sec c n => (authorize_standard o i s g sec c n).1
  | .simplified i s g sec n => (authorize_simplified o i s g sec n).1

/-- Run a sequence of authorize_* calls left to right. -/
def runCalls (o : FiscalOracle) : List OracleCall → FiscalOracle
  | [] => o
  | c :: cs => runCalls (applyCall o c) cs

/-- 10^18 (1.0 in 18-decimal wei units) is an exact double. -/
theorem rnd_1e18 : rnd (1000000000000000000 : ℚ) = 1000000000000000000 := by
  have h := rnd_dyadic 3814697265625 18 (by norm_num) (by norm_num)
  have he : ((3814697265625 : ℤ) : ℚ) * pow2 18 = 1000000000000000000 := by
    norm_num [pow2, Int.toNat]
  rw [he] at h
  exact h

/-- The double stored for the literal 0.0865. -/
theorem rnd_cbs_rate : rnd ((865 : ℚ)/10000) = 6232981884280766 / 2 ^ 56 := by
  have hq0 : (0:ℚ) < 865/10000 := by norm_num
  have h1 : pow2 (-4) ≤ (865:ℚ)/10000 := by norm_num [pow2, Int.toNat]
  have h2 : (865:ℚ)/10000 < pow2 (-4 + 1) := by norm_num [pow2, Int.toNat]
  have h3 : rhe (((865:ℚ)/10000) / pow2 (-4 - 52)) = 6232981884280766 := by
    have hp : pow2 ((-4:ℤ) - 52) = ((2:ℚ) ^ (56:ℕ))⁻¹ := by norm_num [pow2, Int.toNat]
    rw [hp, div_inv_eq_mul]
    apply rhe_eq_of_lt_half <;> norm_num
  have h := rnd_eq_of (-4) 6232981884280766 hq0 h1 h2 h3
  rw [h]
  norm_num [pow2, Int.toNat]

/-- int(10^18 * 0.0865) evaluates to exactly 86500000000000000 (the product
rounds up across the decimal value). -/
theorem fmul_1e18_cbs :
    fmul (1000000000000000000 : ℚ) (6232981884280766 / 2 ^ 56) = 86500000000000000 := by
  unfold fmul
  have hq : (1000000000000000000 : ℚ) * (6232981884280766 / 2 ^ 56)
      = 6232981884280766000000000000000000 / 2 ^ 56 := by norm_num
  rw [hq]
  have hq0 : (0:ℚ) < 6232981884280766000000000000000000 / 2 ^ 56 := by norm_num
  have h1 : pow2 56 ≤ (6232981884280766000000000000000000 : ℚ) / 2 ^ 56 := by
    norm_num [pow2, Int.toNat]
  have h2 : (6232981884280766000000000000000000 : ℚ) / 2 ^ 56 < pow2 (56 + 1) := by
    norm_num [pow2, Int.toNat]
  have h3 : rhe (((6232981884280766000000000000000000 : ℚ) / 2 ^ 56) / pow2 (56 - 52))
      = 5406250000000000 := by
    have hp : pow2 ((56:ℤ) - 52) = (16 : ℚ) := by norm_num [pow2, Int.toNat]
    rw [hp]
    have hn : ((6232981884280766000000000000000000 : ℚ) / 2 ^ 56) / 16
        = 6232981884280766000000000000000000 / 2 ^ 60 := by
      rw [div_div]
      norm_num
    rw [hn, show (5406250000000000 : ℤ) = 5406249999999999 + 1 by norm_num]
    apply rhe_eq_of_gt_half <;> norm_num
  have h := rnd_eq_of 56 5406250000000000 hq0 h1 h2 h3
  rw [h]
  norm_num [pow2, Int.toNat]

/-- int(10000 * 0.0865): the rounded product is just below 865, so truncation
gives 864, not floor(10000 * 0.0865) = 865. -/
theorem fmul_1e4_cbs :
    fmul (10000 : ℚ) (6232981884280766 / 2 ^ 56) = 7608620464209919 / 2 ^ 43 := by
  unfold fmul
  have hq : (10000 : ℚ) * (6232981884280766 / 2 ^ 56)
      = 62329818842807660000 / 2 ^ 56 := by norm_num
  rw [hq]
  have hq0 : (0:ℚ) < 62329818842807660000 / 2 ^ 56 := by norm_num
  have h1 : pow2 9 ≤ (62329818842807660000 : ℚ) / 2 ^ 56 := by norm_num [pow2, Int.toNat]
  have h2 : (62329818842807660000 : ℚ) / 2 ^ 56 < pow2 (9 + 1) := by norm_num [pow2, Int.toNat]
  have h3 : rhe (((62329818842807660000 : ℚ) / 2 ^ 56) / pow2 (9 - 52))
      = 7608620464209919 := by
    have hp : pow2 ((9:ℤ) - 52) = ((2:ℚ) ^ (43:ℕ))⁻¹ := by norm_num [pow2, Int.toNat]
    rw [hp, div_inv_eq_mul]
    have hn : ((62329818842807660000 : ℚ) / 2 ^ 56) * 2 ^ 43
        = 62329818842807660000 / 2 ^ 13 := by
      rw [div_mul_eq_mul_div]
      norm_num
    rw [hn]
    apply rhe_eq_of_lt_half <;> norm_num
  have h := rnd_eq_of 9 7608620464209919 hq0 h1 h2 h3
  rw [h]
  norm_num [pow2, Int.toNat]

theorem truncQ_cex1 : truncQ (7608620464209919 / 2 ^ 43 : ℚ) = 864 := by
  rw [truncQ_of_nonneg (by norm_num)]
  exact Int.floor_eq_iff.mpr (by constructor <;> norm_num)

/-- 200e18 * 2650 / 10000 is the exact double 53e18 (the quotient is dyadic
with a small mantissa), so the simplified scenario is exact. -/
theorem fdiv_53e18 : fdivInt 530000000000000000000000 10000 = 53000000000000000000 := by
  unfold fdivInt
  have hq : ((530000000000000000000000 : ℤ) : ℚ) / ((10000 : ℤ) : ℚ)
      = ((202178955078125 : ℤ) : ℚ) * pow2 18 := by
    push_cast
    norm_num [pow2, Int.toNat]
  rw [hq, rnd_dyadic 202178955078125 18 (by norm_num) (by norm_num)]
  push_cast
  norm_num [pow2, Int.toNat]

/-- 2^55 * 2650 / 10000 rounds up to the next double, one above the exact
floor. -/
theorem fdiv_cex2 : fdivInt 95476312100254515200 10000 = 9547631210025452 := by
  unfold fdivInt
  have hq : ((95476312100254515200 : ℤ) : ℚ) / ((10000 : ℤ) : ℚ)
      = 95476312100254515200 / 10000 := by push_cast; ring
  rw [hq]
  have hq0 : (0:ℚ) < 95476312100254515200 / 10000 := by norm_num
  have h1 : pow2 53 ≤ (95476312100254515200 : ℚ) / 10000 := by norm_num [pow2, Int.toNat]
  have h2 : (95476312100254515200 : ℚ) / 10000 < pow2 (53 + 1) := by norm_num [pow2, Int.toNat]
  have h3 : rhe (((95476312100254515200 : ℚ) / 10000) / pow2 (53 - 52))
      = 4773815605012726 := by
    have hp : pow2 ((53:ℤ) - 52) = (2 : ℚ) := by norm_num [pow2, Int.toNat]
    rw [hp]
    have hn : ((95476312100254515200 : ℚ) / 10000) / 2 = 95476312100254515200 / 20000 := by
      rw [div_div]
      norm_num
    rw [hn, show (4773815605012726 : ℤ) = 4773815605012725 + 1 by norm_num]
    apply rhe_eq_of_gt_half <;> norm_num
  have h := rnd_eq_of 53 4773815605012726 hq0 h1 h2 h3
  rw [h]
  norm_num [pow2, Int.toNat]

theorem pow2_neg50_eq : pow2 (-50) = 8 * pow2 (-53) := by
  have h : (-50 : ℤ) = 3 + -53 := by norm_num
  rw [h, pow2_add]
  norm_num [pow2, Int.toNat]

/-- A standard tax share is non-negative for non-negative inputs. -/
theorem share_nonneg (g : ℤ) (r : ℚ) (hg : 0 ≤ g) (hr : 0 ≤ r) :
    0 ≤ truncQ (fmul (rnd (g : ℚ)) (rnd r)) := by
  have hgq : (0:ℚ) ≤ (g:ℚ) := by exact_mod_cast hg
  have hpn : (0:ℚ) ≤ rnd (g:ℚ) * rnd r := mul_nonneg (rnd_nonneg hgq) (rnd_nonneg hr)
  exact truncQ_nonneg (rnd_nonneg hpn)

set_option maxHeartbeats 1000000 in
/-- A standard tax share int(gross * rate), computed through the three double
roundings, lies within relative error 2^-50 (plus the final truncation) of
the exact product gross * rate. -/
theorem share_bounds (g : ℤ) (r : ℚ) (hg : 0 ≤ g) (hr : 0 ≤ r) :
    ((g:ℚ) * r) * (1 - pow2 (-50)) - 1 < (truncQ (fmul (rnd (g:ℚ)) (rnd r)) : ℚ) ∧
    (truncQ (fmul (rnd (g:ℚ)) (rnd r)) : ℚ) ≤ ((g:ℚ) * r) * (1 + pow2 (-50)) := by
  rw [pow2_neg50_eq]
  set c := pow2 (-53) with hc
  have hc0 : 0 < c := pow2_pos _
  have hc1 : c < 1 := pow2_neg_lt_one (by norm_num)
  have hgq : (0:ℚ) ≤ (g:ℚ) := by exact_mod_cast hg
  have hg1 : (g:ℚ) * (1 - c) ≤ rnd (g:ℚ) := rnd_ge_rel hgq
  have hg2 : rnd (g:ℚ) ≤ (g:ℚ) * (1 + c) := rnd_le_rel hgq
  have hr1 : r * (1 - c) ≤ rnd r := rnd_ge_rel hr
  have hr2 : rnd r ≤ r * (1 + c) := rnd_le_rel hr
  have hgn : 0 ≤ rnd (g:ℚ) := rnd_nonneg hgq
  have hrn : 0 ≤ rnd r := rnd_nonneg hr
  have hgr : (0:ℚ) ≤ (g:ℚ) * r := mul_nonneg hgq hr
  have hgc : (0:ℚ) ≤ (g:ℚ) * (1-c) := mul_nonneg hgq (by linarith)
  have hrc : (0:ℚ) ≤ r * (1-c) := mul_nonneg hr (by linarith)
  have hgc1 : (0:ℚ) ≤ (g:ℚ) * (1+c) := mul_nonneg hgq (by linarith)
  have hp1 : (g:ℚ) * r * ((1-c)*(1-c)) ≤ rnd (g:ℚ) * rnd r := by
    linarith [mul_le_mul hg1 hr1 hrc hgn]
  have hp2 : rnd (g:ℚ) * rnd r ≤ (g:ℚ) * r * ((1+c)*(1+c)) := by
    linarith [mul_le_mul hg2 hr2 hrn hgc1]
  have hpn : (0:ℚ) ≤ rnd (g:ℚ) * rnd r := mul_nonneg hgn hrn
  have hx1 : rnd (g:ℚ) * rnd r * (1-c) ≤ rnd (rnd (g:ℚ) * rnd r) :=
    rnd_ge_rel hpn
  have hx2 : rnd (rnd (g:ℚ) * rnd r) ≤ rnd (g:ℚ) * rnd r * (1+c) :=
    rnd_le_rel hpn
  have hxn : (0:ℚ) ≤ rnd (rnd (g:ℚ) * rnd r) := rnd_nonneg hpn
  have hfm : fmul (rnd (g:ℚ)) (rnd r) = rnd (rnd (g:ℚ) * rnd r) := rfl
  have ht1 : rnd (rnd (g:ℚ) * rnd r) - 1 < (truncQ (fmul (rnd (g:ℚ)) (rnd r)) : ℚ) := by
    rw [hfm]
    have := truncQ_gt hxn
    linarith
  have ht2 : (truncQ (fmul (rnd (g:ℚ)) (rnd r)) : ℚ) ≤ rnd (rnd (g:ℚ) * rnd r) := by
    rw [hfm]
    exact truncQ_le hxn
  have hcube1 : rnd (rnd (g:ℚ) * rnd r) ≤ (g:ℚ) * r * (((1+c)*(1+c))*(1+c)) := by
    have hstep := mul_le_mul_of_nonneg_right hp2 (show (0:ℚ) ≤ 1+c by linarith)
    linarith [hx2, hstep]
  have hcube2 : (g:ℚ) * r * (((1-c)*(1-c))*(1-c)) ≤ rnd (rnd (g:ℚ) * rnd r) := by
    have hstep := mul_le_mul_of_nonneg_right hp1 (show (0:ℚ) ≤ 1-c by linarith)
    linarith [hx1, hstep]
  have hsq : c * c ≤ 1 * c := mul_le_mul_of_nonneg_right hc1.le hc0.le
  have h5 : (0:ℚ) ≤ 5 - 3*c - c*c := by linarith
  have h6 : (0:ℚ) ≤ 5 + 3*c - c*c := by linarith
  have hhigh : rnd (rnd (g:ℚ) * rnd r) ≤ (g:ℚ) * r * (1 + 8*c) := by
    linarith [hcube1, mul_nonneg (mul_nonneg hgr hc0.le) h5]
  have hlow : (g:ℚ) * r * (1 - 8*c) ≤ rnd (rnd (g:ℚ) * rnd r) := by
    linarith [hcube2, mul_nonneg (mul_nonneg hgr hc0.le) h6]
  constructor
  · linarith
  · linarith

/-- int(a / b) through float true division lies within one correctly rounded
ulp (relative 2^-53) plus the truncation of the exact quotient. -/
theorem simp_tax_bounds (a b : ℤ) (ha : 0 ≤ a) (hb : 0 < b) :
    ((a:ℚ)/(b:ℚ)) * (1 - pow2 (-53)) - 1 < (truncQ (fdivInt a b) : ℚ) ∧
    (truncQ (fdivInt a b) : ℚ) ≤ ((a:ℚ)/(b:ℚ)) * (1 + pow2 (-53)) := by
  have haq : (0:ℚ) ≤ (a:ℚ) := by exact_mod_cast ha
  have hbq : (0:ℚ) < (b:ℚ) := by exact_mod_cast hb
  have hq0 : (0:ℚ) ≤ (a:ℚ)/(b:ℚ) := div_nonneg haq hbq.le
  have h1 := rnd_ge_rel hq0
  have h2 := rnd_le_rel hq0
  have hn : (0:ℚ) ≤ rnd ((a:ℚ)/(b:ℚ)) := rnd_nonneg hq0
  have hfd : fdivInt a b = rnd ((a:ℚ)/(b:ℚ)) := rfl
  have ht1 := truncQ_gt hn
  have ht2 := truncQ_le hn
  rw [hfd]
  constructor
  · linarith
  · linarith

/-- Every entry of the decimal rate table is non-negative and the three rates
sum to at most 24.5 percent. -/
theorem sector_rates_dec_facts (s : String) (r : SectorRates)
    (h : SECTOR_RATES_DEC s = some r) :
    0 ≤ r.CBS ∧ 0 ≤ r.IBS_ESTADO ∧ 0 ≤ r.IBS_MUNI ∧
    r.CBS + r.IBS_ESTADO + r.IBS_MUNI ≤ 49/200 := by
  unfold SECTOR_RATES_DEC at h
  split_ifs at h <;>
    (simp only [Option.some.injEq] at h; subst h; norm_num)

/-- C3: calculate_standard returns credit_offset = min(seller_credits,
total_tax); the offset never exceeds the total tax, and whenever the seller
credits cover the total tax the offset equals the total tax exactly. -/
theorem c3_credit_cap (g : ℤ) (s : String) (c : ℤ) (hg : 0 ≤ g) (hc : 0 ≤ c) :
    (calculate_standard g s c).credit_offset = min c (calculate_standard g s c).total_tax ∧
    (calculate_standard g s c).credit_offset ≤ (calculate_standard g s c).total_tax ∧
    ((calculate_standard g s c).total_tax ≤ c →
      (calculate_standard g s c).credit_offset = (calculate_standard g s c).total_tax) :=
  ⟨rfl, min_le_right _ _, fun h => min_eq_right h⟩

/-- Witness for C3 at gross = 1000 wei, sector PADRAO, credits = 99. -/
theorem c3_credit_cap_witness :
    (calculate_standard 1000 "PADRAO" 99).credit_offset
      = min 99 (calculate_standard 1000 "PADRAO" 99).total_tax ∧
    (calculate_standard 1000 "PADRAO" 99).credit_offset
      ≤ (calculate_standard 1000 "PADRAO" 99).total_tax ∧
    ((calculate_standard 1000 "PADRAO" 99).total_tax ≤ 99 →
      (calculate_standard 1000 "PADRAO" 99).credit_offset
        = (calculate_standard 1000 "PADRAO" 99).total_tax) :=
  c3_credit_cap 1000 "PADRAO" 99 (by norm_num) (by norm_num)

/-- C10: both engines echo the caller's sector string verbatim (even when the
rate lookup falls back to the PADRAO rates) and echo gross_amount unchanged. -/
theorem c10_echo (g : ℤ) (s : String) (c : ℤ) :
    (calculate_standard g s c).sector = s ∧
    (calculate_standard g s c).gross_amount = g ∧
    (calculate_simplified g s).sector = s ∧
    (calculate_simplified g s).gross_amount = g :=
  ⟨rfl, rfl, rfl, rfl⟩

/-- C9: every authorize_standard or authorize_simplified call adds exactly one
to signatures_issued and leaves the private key and the signer address
unchanged, so over any sequence of calls the counter grows by the number of
calls. -/
theorem c9_issuance_count :
    (∀ (o : FiscalOracle) (i : String) (se g : ℤ) (sec : String) (cr : ℤ) (n : String),
      (authorize_standard o i se g sec cr n).1.signatures_issued = o.signatures_issued + 1 ∧
      (authorize_standard o i se g sec cr n).1.private_key = o.private_key ∧
      (authorize_standard o i se g sec cr n).1.address = o.address) ∧
    (∀ (o : FiscalOracle) (i : String) (se g : ℤ) (sec : String) (n : String),
      (authorize_simplified o i se g sec n).1.signatures_issued = o.signatures_issued + 1 ∧
      (authorize_simplified o i se g sec n).1.private_key = o.private_key ∧
      (authorize_simplified o i se g sec n).1.address = o.address) ∧
    (∀ (o : FiscalOracle) (cs : List OracleCall),
      (runCalls o cs).signatures_issued = o.signatures_issued + cs.length ∧
      (runCalls o cs).private_key = o.private_key ∧
      (runCalls o cs).address = o.address) := by
  refine ⟨fun o i se g sec cr n => ⟨rfl, rfl, rfl⟩,
          fun o i se g sec n => ⟨rfl, rfl, rfl⟩, ?_⟩
  intro o cs
  induction cs generalizing o with
  | nil => simp [runCalls]
  | cons hd tl ih =>
    have hstep : (applyCall o hd).signatures_issued = o.signatures_issued + 1 ∧
        (applyCall o hd).private_key = o.private_key ∧
        (applyCall o hd).address = o.address := by
      cases hd <;> exact ⟨rfl, rfl, rfl⟩
    obtain ⟨h1, h2, h3⟩ := hstep
    obtain ⟨ih1, ih2, ih3⟩ := ih (applyCall o hd)
    refine ⟨?_, ?_, ?_⟩
    · show (runCalls (applyCall o hd) tl).signatures_issued = _
      rw [ih1, h1]
      simp
      ring
    · show (runCalls (applyCall o hd) tl).private_key = _
      rw [ih2, h2]
    · show (runCalls (applyCall o hd) tl).address = _
      rw [ih3, h3]

/-- C7: authorize_standard hashes the packed encoding of exactly the tuple
(string invoice_id, 20-byte address seller, uint256 gross, uint256 cbs,
uint256 ibs_state, uint256 ibs_city, uint256 credit_offset), in that order,
where the tax fields are the calculate_standard outputs for the call's
inputs, and the widths are fixed at 20 bytes per address and 32 bytes per
uint256. -/
theorem c7_standard_payload :
    (∀ (o : FiscalOracle) (i : String) (se g : ℤ) (sec : String) (cr : ℤ) (n : String),
      (authorize_standard o i se g sec cr n).2.hashed_payload =
        (i.data.map Char.toNat) ++ beBytes 20 se.toNat ++ beBytes 32 g.toNat ++
        beBytes 32 (calculate_standard g sec cr).cbs_amount.toNat ++
        beBytes 32 (calculate_standard g sec cr).ibs_state_amount.toNat ++
        beBytes 32 (calculate_standard g sec cr).ibs_city_amount.toNat ++
        beBytes 32 (calculate_standard g sec cr).credit_offset.toNat) ∧
    (∀ a : ℤ, (beBytes 20 a.toNat).length = 20 ∧ (beBytes 32 a.toNat).length = 32) := by
  constructor
  · intro o i se g sec cr n
    simp [authorize_standard, solidityPacked, encodeArg, List.append_assoc]
  · intro a
    exact ⟨beBytes_length 20 _, beBytes_length 32 _⟩

/-- C8: authorize_simplified hashes the packed encoding of exactly the tuple
(string invoice_id, address seller, uint256 gross, uint256 rate_bps, string
"SIMPLIFIED"); the literal tag is part of every simplified hashed payload,
so the packed bytes end with the tag even when all numeric fields collide
with a standard-mode payload. -/
theorem c8_simplified_payload :
    ∀ (o : FiscalOracle) (i : String) (se g : ℤ) (sec : String) (n : String),
      (authorize_simplified o i se g sec n).2.hashed_payload =
        (i.data.map Char.toNat) ++ beBytes 20 se.toNat ++ beBytes 32 g.toNat ++
        beBytes 32 (calculate_simplified g sec).rate_bps.toNat ++
        ("SIMPLIFIED".data.map Char.toNat) := by
  intro o i se g sec n
  simp [authorize_simplified, solidityPacked, encodeArg, List.append_assoc]

/-- Every standard share vanishes at gross = 0, whatever the rate. -/
theorem share_at_zero (r : ℚ) : truncQ (fmul (rnd ((0:ℤ):ℚ)) r) = 0 := by
  have hc0 : rnd ((0:ℤ):ℚ) = 0 := by
    rw [Int.cast_zero, rnd_zero]
  rw [hc0]
  show truncQ (rnd (0 * r)) = 0
  rw [zero_mul, rnd_zero, truncQ_of_nonneg le_rfl]
  exact Int.floor_zero

/-- C4 (amended): with gross_amount = 0 both engines return every tax amount
field equal to 0 without error, and calculate_standard reports
effective_rate = 0 through its explicit guard; calculate_simplified's
effective_rate, however, is rate_bps/10000 independent of gross (so it is 0
only for zero-rate sectors). -/
theorem c4_zero_gross (s : String) (c g : ℤ) (hc : 0 ≤ c) :
    (calculate_standard 0 s c).cbs_amount = 0 ∧
    (calculate_standard 0 s c).ibs_state_amount = 0 ∧
    (calculate_standard 0 s c).ibs_city_amount = 0 ∧
    (calculate_standard 0 s c).total_tax = 0 ∧
    (calculate_standard 0 s c).credit_offset = 0 ∧
    (calculate_standard 0 s c).net_tax = 0 ∧
    (calculate_standard 0 s c).net_to_seller = 0 ∧
    (calculate_standard 0 s c).effective_rate = 0 ∧
    (calculate_simplified 0 s).tax_amount = 0 ∧
    (calculate_simplified 0 s).net_to_seller = 0 ∧
    (calculate_simplified 0 s).effective_rate = (calculate_simplified g s).effective_rate := by
  have hcbs : (calculate_standard 0 s c).cbs_amount = 0 := share_at_zero _
  have hibs1 : (calculate_standard 0 s c).ibs_state_amount = 0 := share_at_zero _
  have hibs2 : (calculate_standard 0 s c).ibs_city_amount = 0 := share_at_zero _
  have htot : (calculate_standard 0 s c).total_tax = 0 := by
    show (calculate_standard 0 s c).cbs_amount + (calculate_standard 0 s c).ibs_state_amount
        + (calculate_standard 0 s c).ibs_city_amount = 0
    rw [hcbs, hibs1, hibs2]
    norm_num
  have hoff : (calculate_standard 0 s c).credit_offset = 0 := by
    show min c (calculate_standard 0 s c).total_tax = 0
    rw [htot]
    exact min_eq_right hc
  have hnet : (calculate_standard 0 s c).net_tax = 0 := by
    show (calculate_standard 0 s c).total_tax - (calculate_standard 0 s c).credit_offset = 0
    rw [htot, hoff]
    norm_num
  have hnts : (calculate_standard 0 s c).net_to_seller = 0 := by
    show (0:ℤ) - (calculate_standard 0 s c).net_tax = 0
    rw [hnet]
    norm_num
  have heff : (calculate_standard 0 s c).effective_rate = 0 := by
    show (if (0:ℤ) < 0 then fdivInt (calculate_standard 0 s c).total_tax 0 else 0) = 0
    norm_num
  have hts : (calculate_simplified 0 s).tax_amount = 0 := by
    show truncQ (fdivInt (0 * (SIMPLIFIED_RATES_BPS s).getD 2650) 10000) = 0
    rw [zero_mul]
    show truncQ (rnd (((0:ℤ):ℚ)/((10000:ℤ):ℚ))) = 0
    rw [Int.cast_zero, zero_div, rnd_zero, truncQ_of_nonneg le_rfl]
    exact Int.floor_zero
  have htsn : (calculate_simplified 0 s).net_to_seller = 0 := by
    show (0:ℤ) - (calculate_simplified 0 s).tax_amount = 0
    rw [hts]
    norm_num
  exact ⟨hcbs, hibs1, hibs2, htot, hoff, hnet, hnts, heff, hts, htsn, rfl⟩

/-- Witness for C4 at sector SAUDE, credits 7, comparison gross 123. -/
theorem c4_zero_gross_witness :
    (calculate_standard 0 "SAUDE" 7).cbs_amount = 0 ∧
    (calculate_standard 0 "SAUDE" 7).ibs_state_amount = 0 ∧
    (calculate_standard 0 "SAUDE" 7).ibs_city_amount = 0 ∧
    (calculate_standard 0 "SAUDE" 7).total_tax = 0 ∧
    (calculate_standard 0 "SAUDE" 7).credit_offset = 0 ∧
    (calculate_standard 0 "SAUDE" 7).net_tax = 0 ∧
    (calculate_standard 0 "SAUDE" 7).net_to_seller = 0 ∧
    (calculate_standard 0 "SAUDE" 7).effective_rate = 0 ∧
    (calculate_simplified 0 "SAUDE").tax_amount = 0 ∧
    (calculate_simplified 0 "SAUDE").net_to_seller = 0 ∧
    (calculate_simplified 0 "SAUDE").effective_rate
      = (calculate_simplified 123 "SAUDE").effective_rate :=
  c4_zero_gross "SAUDE" 7 123 (by norm_num)

/-- Counterexample to C4 as stated: for gross = 0 and sector PADRAO the
simplified engine reports effective_rate = 0.265, not 0. -/
theorem c4_counterexample : (calculate_simplified 0 "PADRAO").effective_rate ≠ 0 := by
  show fdivInt ((SIMPLIFIED_RATES_BPS "PADRAO").getD 2650) 10000 ≠ 0
  have hb : (SIMPLIFIED_RATES_BPS "PADRAO").getD 2650 = 2650 := rfl
  rw [hb]
  show rnd (((2650:ℤ):ℚ)/((10000:ℤ):ℚ)) ≠ 0
  have h : ((2650:ℤ):ℚ)/((10000:ℤ):ℚ) = 53/200 := by norm_num
  rw [h]
  exact ne_of_gt (rnd_pos_of_pos (by norm_num))

/-- The sector tags present in both rate tables. -/
def TABLE_SECTORS : List String :=
  ["PADRAO", "SAUDE", "EDUCACAO", "TRANSPORTE_COLETIVO", "CESTA_BASICA", "COMBUSTIVEIS"]

theorem tables_none_of_not_mem (s : String) (hs : s ∉ TABLE_SECTORS) :
    SECTOR_RATES_DEC s = none ∧ SIMPLIFIED_RATES_BPS s = none := by
  simp only [TABLE_SECTORS, List.mem_cons, List.not_mem_nil, or_false, not_or] at hs
  obtain ⟨h1, h2, h3, h4, h5, h6⟩ := hs
  constructor <;>
    simp [SECTOR_RATES_DEC, SIMPLIFIED_RATES_BPS, h1, h2, h3, h4, h5, h6]

/-- C5: a sector string absent from the rate tables raises no error and is
computed with the STANDARD (PADRAO) rates: all tax outputs of
calculate_standard coincide with the PADRAO outputs, and calculate_simplified
uses rate_bps = 2650 and yields the PADRAO amounts. -/
theorem c5_unknown_sector_defaults (s : String) (hs : s ∉ TABLE_SECTORS) (g c : ℤ) :
    (calculate_standard g s c).cbs_amount = (calculate_standard g "PADRAO" c).cbs_amount ∧
    (calculate_standard g s c).ibs_state_amount
      = (calculate_standard g "PADRAO" c).ibs_state_amount ∧
    (calculate_standard g s c).ibs_city_amount
      = (calculate_standard g "PADRAO" c).ibs_city_amount ∧
    (calculate_standard g s c).total_tax = (calculate_standard g "PADRAO" c).total_tax ∧
    (calculate_standard g s c).credit_offset
      = (calculate_standard g "PADRAO" c).credit_offset ∧
    (calculate_standard g s c).net_tax = (calculate_standard g "PADRAO" c).net_tax ∧
    (calculate_standard g s c).net_to_seller
      = (calculate_standard g "PADRAO" c).net_to_seller ∧
    (calculate_standard g s c).effective_rate
      = (calculate_standard g "PADRAO" c).effective_rate ∧
    (calculate_simplified g s).rate_bps = 2650 ∧
    (calculate_simplified g s).tax_amount = (calculate_simplified g "PADRAO").tax_amount ∧
    (calculate_simplified g s).net_to_seller
      = (calculate_simplified g "PADRAO").net_to_seller ∧
    (calculate_simplified g s).effective_rate
      = (calculate_simplified g "PADRAO").effective_rate := by
  obtain ⟨hd, hb⟩ := tables_none_of_not_mem s hs
  have hrs : SECTOR_RATES s = none := by rw [SECTOR_RATES, hd]; rfl
  have hrates : (SECTOR_RATES s).getD (floatRates PADRAO_DEC)
      = (SECTOR_RATES "PADRAO").getD (floatRates PADRAO_DEC) := by
    rw [hrs]
    rfl
  have hbps : (SIMPLIFIED_RATES_BPS s).getD 2650
      = (SIMPLIFIED_RATES_BPS "PADRAO").getD 2650 := by
    rw [hb]
    rfl
  simp only [calculate_standard, calculate_simplified, hrates, hbps]
  norm_num
  rfl

set_option maxHeartbeats 1000000 in
/-- C6: for non-negative gross and credits and a sector present in the rate
table, calculate_standard satisfies credit_offset ≤ total_tax,
credit_offset ≤ seller_credits, net_tax ≤ total_tax, total_tax ≤ gross, and
net_to_seller = gross − net_tax ≥ 0. -/
theorem c6_standard_invariants (g : ℤ) (s : String) (c : ℤ) (rdec : SectorRates)
    (hg : 0 ≤ g) (hc : 0 ≤ c) (hs : SECTOR_RATES_DEC s = some rdec) :
    (calculate_standard g s c).credit_offset ≤ (calculate_standard g s c).total_tax ∧
    (calculate_standard g s c).credit_offset ≤ c ∧
    (calculate_standard g s c).net_tax ≤ (calculate_standard g s c).total_tax ∧
    (calculate_standard g s c).total_tax ≤ g ∧
    (calculate_standard g s c).net_to_seller = g - (calculate_standard g s c).net_tax ∧
    0 ≤ (calculate_standard g s c).net_to_seller := by
  obtain ⟨hr1, hr2, hr3, hsum⟩ := sector_rates_dec_facts s rdec hs
  have hgq : (0:ℚ) ≤ (g:ℚ) := by exact_mod_cast hg
  have hrates : (SECTOR_RATES s).getD (floatRates PADRAO_DEC) = floatRates rdec := by
    rw [SECTOR_RATES, hs]
    rfl
  have hcbs : (calculate_standard g s c).cbs_amount
      = truncQ (fmul (rnd (g:ℚ)) (rnd rdec.CBS)) := by
    show truncQ (fmul (rnd (g:ℚ)) ((SECTOR_RATES s).getD (floatRates PADRAO_DEC)).CBS) = _
    rw [hrates]
    rfl
  have hibs1 : (calculate_standard g s c).ibs_state_amount
      = truncQ (fmul (rnd (g:ℚ)) (rnd rdec.IBS_ESTADO)) := by
    show truncQ (fmul (rnd (g:ℚ))
        ((SECTOR_RATES s).getD (floatRates PADRAO_DEC)).IBS_ESTADO) = _
    rw [hrates]
    rfl
  have hibs2 : (calculate_standard g s c).ibs_city_amount
      = truncQ (fmul (rnd (g:ℚ)) (rnd rdec.IBS_MUNI)) := by
    show truncQ (fmul (rnd (g:ℚ))
        ((SECTOR_RATES s).getD (floatRates PADRAO_DEC)).IBS_MUNI) = _
    rw [hrates]
    rfl
  have htote : (calculate_standard g s c).total_tax
      = truncQ (fmul (rnd (g:ℚ)) (rnd rdec.CBS))
        + truncQ (fmul (rnd (g:ℚ)) (rnd rdec.IBS_ESTADO))
        + truncQ (fmul (rnd (g:ℚ)) (rnd rdec.IBS_MUNI)) := by
    show (calculate_standard g s c).cbs_amount + (calculate_standard g s c).ibs_state_amount
        + (calculate_standard g s c).ibs_city_amount = _
    rw [hcbs, hibs1, hibs2]
  have hb1 := (share_bounds g rdec.CBS hg hr1).2
  have hb2 := (share_bounds g rdec.IBS_ESTADO hg hr2).2
  have hb3 := (share_bounds g rdec.IBS_MUNI hg hr3).2
  have hn1 := share_nonneg g rdec.CBS hg hr1
  have hn2 := share_nonneg g rdec.IBS_ESTADO hg hr2
  have hn3 := share_nonneg g rdec.IBS_MUNI hg hr3
  have hp0 : (0:ℚ) ≤ pow2 (-50) := (pow2_pos _).le
  have hp1 : pow2 (-50) < 1 := pow2_neg_lt_one (by norm_num)
  have htotq : ((calculate_standard g s c).total_tax : ℚ) ≤ (g:ℚ) := by
    rw [htote]
    push_cast
    linarith [hb1, hb2, hb3,
      mul_le_mul_of_nonneg_left hsum hgq,
      mul_le_mul_of_nonneg_left hsum (mul_nonneg hgq hp0),
      mul_le_mul_of_nonneg_left hp1.le hgq]
  have htot_le_g : (calculate_standard g s c).total_tax ≤ g := by exact_mod_cast htotq
  have htotnn : 0 ≤ (calculate_standard g s c).total_tax := by
    rw [htote]
    omega
  have hoffe : (calculate_standard g s c).credit_offset
      = min c (calculate_standard g s c).total_tax := rfl
  have hmin0 : 0 ≤ min c (calculate_standard g s c).total_tax := le_min hc htotnn
  refine ⟨min_le_right _ _, min_le_left _ _, ?_, htot_le_g, rfl, ?_⟩
  · show (calculate_standard g s c).total_tax - (calculate_standard g s c).credit_offset
        ≤ (calculate_standard g s c).total_tax
    rw [hoffe]
    linarith
  · show 0 ≤ g - ((calculate_standard g s c).total_tax
        - (calculate_standard g s c).credit_offset)
    rw [hoffe]
    linarith

/-- Witness for C6 at gross = 1000, sector PADRAO, credits = 5. -/
theorem c6_standard_invariants_witness :
    (calculate_standard 1000 "PADRAO" 5).credit_offset
      ≤ (calculate_standard 1000 "PADRAO" 5).total_tax ∧
    (calculate_standard 1000 "PADRAO" 5).credit_offset ≤ 5 ∧
    (calculate_standard 1000 "PADRAO" 5).net_tax
      ≤ (calculate_standard 1000 "PADRAO" 5).total_tax ∧
    (calculate_standard 1000 "PADRAO" 5).total_tax ≤ 1000 ∧
    (calculate_standard 1000 "PADRAO" 5).net_to_seller
      = 1000 - (calculate_standard 1000 "PADRAO" 5).net_tax ∧
    0 ≤ (calculate_standard 1000 "PADRAO" 5).net_to_seller :=
  c6_standard_invariants 1000 "PADRAO" 5 ⟨865/10000, 1115/10000, 470/10000⟩
    (by norm_num) (by norm_num) rfl

/-- C1 (amended): the particular value is exact — for gross = 10^18 wei and
sector PADRAO the federal share is exactly 86_500_000_000_000_000; in
general each share is int(gross * rate) evaluated in IEEE-754 doubles,
which stays within relative error 2^-50 (plus the final truncation toward
zero) of gross * rate but can differ from floor(gross * rate). -/
theorem c1_share_truncation (g : ℤ) (s : String) (c : ℤ) (rdec : SectorRates)
    (hg : 0 ≤ g) (hs : SECTOR_RATES_DEC s = some rdec) :
    (calculate_standard 1000000000000000000 "PADRAO" 0).cbs_amount = 86500000000000000 ∧
    (((g:ℚ) * rdec.CBS) * (1 - pow2 (-50)) - 1
        < ((calculate_standard g s c).cbs_amount : ℚ) ∧
      ((calculate_standard g s c).cbs_amount : ℚ)
        ≤ ((g:ℚ) * rdec.CBS) * (1 + pow2 (-50))) ∧
    (((g:ℚ) * rdec.IBS_ESTADO) * (1 - pow2 (-50)) - 1
        < ((calculate_standard g s c).ibs_state_amount : ℚ) ∧
      ((calculate_standard g s c).ibs_state_amount : ℚ)
        ≤ ((g:ℚ) * rdec.IBS_ESTADO) * (1 + pow2 (-50))) ∧
    (((g:ℚ) * rdec.IBS_MUNI) * (1 - pow2 (-50)) - 1
        < ((calculate_standard g s c).ibs_city_amount : ℚ) ∧
      ((calculate_standard g s c).ibs_city_amount : ℚ)
        ≤ ((g:ℚ) * rdec.IBS_MUNI) * (1 + pow2 (-50))) := by
  obtain ⟨hr1, hr2, hr3, _⟩ := sector_rates_dec_facts s rdec hs
  have hrates : (SECTOR_RATES s).getD (floatRates PADRAO_DEC) = floatRates rdec := by
    rw [SECTOR_RATES, hs]
    rfl
  have hcbs : (calculate_standard g s c).cbs_amount
      = truncQ (fmul (rnd (g:ℚ)) (rnd rdec.CBS)) := by
    show truncQ (fmul (rnd (g:ℚ)) ((SECTOR_RATES s).getD (floatRates PADRAO_DEC)).CBS) = _
    rw [hrates]
    rfl
  have hibs1 : (calculate_standard g s c).ibs_state_amount
      = truncQ (fmul (rnd (g:ℚ)) (rnd rdec.IBS_ESTADO)) := by
    show truncQ (fmul (rnd (g:ℚ))
        ((SECTOR_RATES s).getD (floatRates PADRAO_DEC)).IBS_ESTADO) = _
    rw [hrates]
    rfl
  have hibs2 : (calculate_standard g s c).ibs_city_amount
      = truncQ (fmul (rnd (g:ℚ)) (rnd rdec.IBS_MUNI)) := by
    show truncQ (fmul (rnd (g:ℚ))
        ((SECTOR_RATES s).getD (floatRates PADRAO_DEC)).IBS_MUNI) = _
    rw [hrates]
    rfl
  have hpart : (calculate_standard 1000000000000000000 "PADRAO" 0).cbs_amount
      = 86500000000000000 := by
    show truncQ (fmul (rnd ((1000000000000000000:ℤ):ℚ))
        ((SECTOR_RATES "PADRAO").getD (floatRates PADRAO_DEC)).CBS) = _
    show truncQ (fmul (rnd ((1000000000000000000:ℤ):ℚ)) (rnd ((865:ℚ)/10000))) = _
    rw [show ((1000000000000000000:ℤ):ℚ) = (1000000000000000000:ℚ) by norm_num]
    rw [rnd_1e18, rnd_cbs_rate, fmul_1e18_cbs]
    rw [show (86500000000000000:ℚ) = ((86500000000000000:ℤ):ℚ) by norm_num]
    exact truncQ_intCast _
  refine ⟨hpart, ?_, ?_, ?_⟩
  · rw [hcbs]
    exact share_bounds g rdec.CBS hg hr1
  · rw [hibs1]
    exact share_bounds g rdec.IBS_ESTADO hg hr2
  · rw [hibs2]
    exact share_bounds g rdec.IBS_MUNI hg hr3

/-- Witness for C1 at gross = 10^18, sector PADRAO, credits 0. -/
theorem c1_share_truncation_witness :
    (calculate_standard 1000000000000000000 "PADRAO" 0).cbs_amount = 86500000000000000 ∧
    ((((1000000000000000000:ℤ):ℚ) * (865/10000)) * (1 - pow2 (-50)) - 1
        < ((calculate_standard 1000000000000000000 "PADRAO" 0).cbs_amount : ℚ) ∧
      ((calculate_standard 1000000000000000000 "PADRAO" 0).cbs_amount : ℚ)
        ≤ (((1000000000000000000:ℤ):ℚ) * (865/10000)) * (1 + pow2 (-50))) ∧
    ((((1000000000000000000:ℤ):ℚ) * (1115/10000)) * (1 - pow2 (-50)) - 1
        < ((calculate_standard 1000000000000000000 "PADRAO" 0).ibs_state_amount : ℚ) ∧
      ((calculate_standard 1000000000000000000 "PADRAO" 0).ibs_state_amount : ℚ)
        ≤ (((1000000000000000000:ℤ):ℚ) * (1115/10000)) * (1 + pow2 (-50))) ∧
    ((((1000000000000000000:ℤ):ℚ) * (470/10000)) * (1 - pow2 (-50)) - 1
        < ((calculate_standard 1000000000000000000 "PADRAO" 0).ibs_city_amount : ℚ) ∧
      ((calculate_standard 1000000000000000000 "PADRAO" 0).ibs_city_amount : ℚ)
        ≤ (((1000000000000000000:ℤ):ℚ) * (470/10000)) * (1 + pow2 (-50))) :=
  c1_share_truncation 1000000000000000000 "PADRAO" 0
    ⟨865/10000, 1115/10000, 470/10000⟩ (by norm_num) rfl

/-- Counterexample to C1 as stated: at gross = 10000 wei and sector PADRAO
the code returns cbs = 864 while floor(10000 * 0.0865) = 865; the double
product 10000 * 0.0865 falls just below 865 and int() truncates it. -/
theorem c1_counterexample :
    (calculate_standard 10000 "PADRAO" 0).cbs_amount ≠ ⌊(10000 : ℚ) * (865/10000)⌋ := by
  have hl : (calculate_standard 10000 "PADRAO" 0).cbs_amount = 864 := by
    show truncQ (fmul (rnd ((10000:ℤ):ℚ))
        ((SECTOR_RATES "PADRAO").getD (floatRates PADRAO_DEC)).CBS) = _
    show truncQ (fmul (rnd ((10000:ℤ):ℚ)) (rnd ((865:ℚ)/10000))) = _
    rw [rnd_int_small 10000 (by norm_num) (by norm_num)]
    rw [show ((10000:ℤ):ℚ) = (10000:ℚ) by norm_num]
    rw [rnd_cbs_rate, fmul_1e4_cbs, truncQ_cex1]
  rw [hl]
  have hr : ⌊(10000 : ℚ) * (865/10000)⌋ = 865 := by
    rw [show (10000 : ℚ) * (865/10000) = 865 by norm_num]
    exact Int.floor_eq_iff.mpr (by constructor <;> norm_num)
  rw [hr]
  norm_num

/-- The bps lookup, default included, is never negative. -/
theorem bps_nonneg (s : String) : 0 ≤ (SIMPLIFIED_RATES_BPS s).getD 2650 := by
  unfold SIMPLIFIED_RATES_BPS
  split_ifs <;> norm_num

/-- C2 (amended): the 200e18/PADRAO scenario is exact (rate_bps 2650,
tax 53e18, net 147e18) and net_to_seller = gross − tax_amount always; in
general tax_amount = int of the correctly rounded double of
gross * rate_bps / 10000, within relative 2^-53 (plus truncation) of the
exact quotient, but not always floor of it. -/
theorem c2_simplified_truncation (g : ℤ) (s : String) (hg : 0 ≤ g) :
    (calculate_simplified 200000000000000000000 "PADRAO").rate_bps = 2650 ∧
    (calculate_simplified 200000000000000000000 "PADRAO").tax_amount
      = 53000000000000000000 ∧
    (calculate_simplified 200000000000000000000 "PADRAO").net_to_seller
      = 147000000000000000000 ∧
    (calculate_simplified g s).net_to_seller = g - (calculate_simplified g s).tax_amount ∧
    (((g * (calculate_simplified g s).rate_bps : ℤ) : ℚ) / ((10000:ℤ):ℚ))
        * (1 - pow2 (-53)) - 1 < ((calculate_simplified g s).tax_amount : ℚ) ∧
    ((calculate_simplified g s).tax_amount : ℚ)
      ≤ (((g * (calculate_simplified g s).rate_bps : ℤ) : ℚ) / ((10000:ℤ):ℚ))
        * (1 + pow2 (-53)) := by
  have hb : (SIMPLIFIED_RATES_BPS "PADRAO").getD 2650 = 2650 := rfl
  have htax : (calculate_simplified 200000000000000000000 "PADRAO").tax_amount
      = 53000000000000000000 := by
    show truncQ (fdivInt
        (200000000000000000000 * (SIMPLIFIED_RATES_BPS "PADRAO").getD 2650) 10000) = _
    rw [hb,
      show (200000000000000000000 * 2650 : ℤ) = 530000000000000000000000 by norm_num,
      fdiv_53e18,
      show (53000000000000000000:ℚ) = ((53000000000000000000:ℤ):ℚ) by norm_num]
    exact truncQ_intCast _
  have hnet : (calculate_simplified 200000000000000000000 "PADRAO").net_to_seller
      = 147000000000000000000 := by
    show (200000000000000000000:ℤ)
        - (calculate_simplified 200000000000000000000 "PADRAO").tax_amount = _
    rw [htax]
    norm_num
  have hbps := bps_nonneg s
  have hbnds := simp_tax_bounds (g * (SIMPLIFIED_RATES_BPS s).getD 2650) 10000
    (mul_nonneg hg hbps) (by norm_num)
  have hrw : (calculate_simplified g s).rate_bps = (SIMPLIFIED_RATES_BPS s).getD 2650 := rfl
  have htax2 : (calculate_simplified g s).tax_amount
      = truncQ (fdivInt (g * (SIMPLIFIED_RATES_BPS s).getD 2650) 10000) := rfl
  refine ⟨hb, htax, hnet, rfl, ?_, ?_⟩
  · rw [htax2, hrw]
    exact hbnds.1
  · rw [htax2, hrw]
    exact hbnds.2

/-- Witness for C2 at gross = 7, sector SAUDE. -/
theorem c2_simplified_truncation_witness :
    (calculate_simplified 200000000000000000000 "PADRAO").rate_bps = 2650 ∧
    (calculate_simplified 200000000000000000000 "PADRAO").tax_amount
      = 53000000000000000000 ∧
    (calculate_simplified 200000000000000000000 "PADRAO").net_to_seller
      = 147000000000000000000 ∧
    (calculate_simplified 7 "SAUDE").net_to_seller
      = 7 - (calculate_simplified 7 "SAUDE").tax_amount ∧
    (((7 * (calculate_simplified 7 "SAUDE").rate_bps : ℤ) : ℚ) / ((10000:ℤ):ℚ))
        * (1 - pow2 (-53)) - 1 < ((calculate_simplified 7 "SAUDE").tax_amount : ℚ) ∧
    ((calculate_simplified 7 "SAUDE").tax_amount : ℚ)
      ≤ (((7 * (calculate_simplified 7 "SAUDE").rate_bps : ℤ) : ℚ) / ((10000:ℤ):ℚ))
        * (1 + pow2 (-53)) :=
  c2_simplified_truncation 7 "SAUDE" (by norm_num)

/-- Counterexample to C2 as stated: at gross = 2^55 and sector PADRAO the
code returns tax_amount = 9547631210025452 while
floor(2^55 * 2650 / 10000) = 9547631210025451; the quotient rounds up to
the nearest double before truncation. -/
theorem c2_counterexample :
    (calculate_simplified 36028797018963968 "PADRAO").tax_amount
      ≠ ⌊((36028797018963968 : ℚ) * 2650) / 10000⌋ := by
  have hb : (SIMPLIFIED_RATES_BPS "PADRAO").getD 2650 = 2650 := rfl
  have hl : (calculate_simplified 36028797018963968 "PADRAO").tax_amount
      = 9547631210025452 := by
    show truncQ (fdivInt
        (36028797018963968 * (SIMPLIFIED_RATES_BPS "PADRAO").getD 2650) 10000) = _
    rw [hb,
      show (36028797018963968 * 2650 : ℤ) = 95476312100254515200 by norm_num,
      fdiv_cex2,
      show (9547631210025452:ℚ) = ((9547631210025452:ℤ):ℚ) by norm_num]
    exact truncQ_intCast _
  have hr : ⌊((36028797018963968 : ℚ) * 2650) / 10000⌋ = 9547631210025451 := by
    rw [show ((36028797018963968 : ℚ) * 2650) / 10000
        = 95476312100254515200 / 10000 by norm_num]
    exact Int.floor_eq_iff.mpr (by constructor <;> norm_num)
  rw [hl, hr]
  norm_num

/-- Witness for C5 at the unknown sector tag FOO, gross = 777, credits = 5. -/
theorem c5_unknown_sector_defaults_witness :
    (calculate_standard 777 "FOO" 5).cbs_amount
      = (calculate_standard 777 "PADRAO" 5).cbs_amount ∧
    (calculate_standard 777 "FOO" 5).ibs_state_amount
      = (calculate_standard 777 "PADRAO" 5).ibs_state_amount ∧
    (calculate_standard 777 "FOO" 5).ibs_city_amount
      = (calculate_standard 777 "PADRAO" 5).ibs_city_amount ∧
    (calculate_standard 777 "FOO" 5).total_tax
      = (calculate_standard 777 "PADRAO" 5).total_tax ∧
    (calculate_standard 777 "FOO" 5).credit_offset
      = (calculate_standard 777 "PADRAO" 5).credit_offset ∧
    (calculate_standard 777 "FOO" 5).net_tax
      = (calculate_standard 777 "PADRAO" 5).net_tax ∧
    (calculate_standard 777 "FOO" 5).net_to_seller
      = (calculate_standard 777 "PADRAO" 5).net_to_seller ∧
    (calculate_standard 777 "FOO" 5).effective_rate
      = (calculate_standard 777 "PADRAO" 5).effective_rate ∧
    (calculate_simplified 777 "FOO").rate_bps = 2650 ∧
    (calculate_simplified 777 "FOO").tax_amount
      = (calculate_simplified 777 "PADRAO").tax_amount ∧
    (calculate_simplified 777 "FOO").net_to_seller
      = (calculate_simplified 777 "PADRAO").net_to_seller ∧
    (calculate_simplified 777 "FOO").effective_rate
      = (calculate_simplified 777 "PADRAO").effective_rate :=
  c5_unknown_sector_defaults "FOO" (by decide) 777 5
